import Mathlib

/-
  Verification development for the fish-speech-go admission-controlled
  streaming gateway core.

  The development shallowly embeds the four core subsystems the claims
  are about:
    * the Chunker admission limiter (src/unnamed/part_000 and the
      sync.Once variant in src/unnamed/part_001),
    * the MessagePack wire encoder (src/unnamed/part_007),
    * the work-queue Manager (src/internal/queue/manager.go),
    * the streaming relay loops (src/go/internal/api/handlers.go and
      src/internal/api/tts_handler.go).

  Go channels of unit tokens are modelled by their occupancy count
  (a send on a channel of capacity `cap` succeeds iff the occupancy is
  below `cap`); Go durations are modelled as integers (nanoseconds);
  Go byte strings are modelled as lists of naturals below 256.
-/

set_option maxHeartbeats 1000000

namespace FishSpeech
/-! ## Admission limiter (Chunker), src/unnamed/part_000

  `Chunker` holds a buffered channel `slots` of capacity `MaxConcurrent`
  and an `acquireTimeout` duration.  `Acquire` first tries a
  non-blocking send on `slots` (fast path); if the channel is full it
  either polls once more with a `default` branch (no-wait policy when
  `acquireTimeout <= 0`) or waits on a timed select.  We model the
  outcome of the call at the instant it is made: occupied slots are the
  channel occupancy `count`, and the caller's context is represented by
  whether it is already canceled. -/

structure ChunkerConfig where
  maxConcurrent : Int
  acquireTimeout : Int
  deriving DecidableEq

structure Chunker where
  slotsCap : Nat
  acquireTimeout : Int
  deriving DecidableEq

/-- `NewChunker` from src/unnamed/part_000: a non-positive
  `MaxConcurrent` is silently replaced by 1, and the slots channel is
  allocated with that capacity. -/
def NewChunker (cfg : ChunkerConfig) : Chunker :=
  let m := if cfg.maxConcurrent ≤ 0 then 1 else cfg.maxConcurrent
  { slotsCap := m.toNat, acquireTimeout := cfg.acquireTimeout }

inductive AcquireErr where
  | canceled
  | limitExceeded
  | acquireTimeout
  deriving DecidableEq

inductive AcquireOutcome where
  /-- the send on `slots` succeeded: the slot is granted and the channel
    occupancy becomes `count`. -/
  | granted (count : Nat)
  /-- `Acquire` returns `(nil, err)` without suspending. -/
  | rejected (e : AcquireErr)
  /-- the call suspends in the timed select (capacity full, positive
    timeout, context not yet canceled). -/
  | waiting
  deriving DecidableEq

/-- `Chunker.Acquire` from src/unnamed/part_000, at the instant of the
  call.  The fast path is a select on {send, default}: it grants
  whenever the channel is not full, before the context is ever
  consulted.  The no-timeout slow path is a select on
  {send, ctx.Done, default}: with the channel full it returns the
  context's error when canceled and `ErrLimitExceeded` otherwise.  The
  timed slow path is a select on {send, ctx.Done, timer}: with the
  channel full it returns the context's error when already canceled and
  otherwise suspends. -/
def Chunker.Acquire (c : Chunker) (count : Nat) (ctxCanceled : Bool) : AcquireOutcome :=
  if count < c.slotsCap then .granted (count + 1)
  else if c.acquireTimeout ≤ 0 then
    if ctxCanceled then .rejected .canceled else .rejected .limitExceeded
  else
    if ctxCanceled then .rejected .canceled else .waiting

/-! ## The error-returning constructor, src/unnamed/part_001 (second
  Chunker variant) -/

structure Options where
  maxConcurrent : Int
  acquireTimeout : Int
  deriving DecidableEq

inductive ChunkerInitErr where
  /-- "MaxConcurrent must be greater than zero" -/
  | maxConcurrentNotPositive
  deriving DecidableEq

/-- `NewChunker` from the second variant in src/unnamed/part_001:
  `MaxConcurrent <= 0` is a construction-time error. -/
def NewChunkerChecked (opts : Options) : Except ChunkerInitErr Chunker :=
  if opts.maxConcurrent ≤ 0 then .error .maxConcurrentNotPositive
  else .ok { slotsCap := opts.maxConcurrent.toNat, acquireTimeout := opts.acquireTimeout }

/-! ## Wire encoder, src/unnamed/part_007

  `encodeTTSRequest` hand-writes the MessagePack encoding of the
  backend request.  Go byte strings are modelled as `List Nat` (each
  element a byte value); the absent `reference_id` is the empty string,
  exactly as in the Go struct, and the optional float fields carry the
  8-byte big-endian IEEE-754 image of the float64 value, which is the
  only aspect of the float the encoder inspects. -/

structure TTSRequest where
  text : List Nat
  referenceID : List Nat
  streaming : Bool
  format : List Nat
  topP : Option (List Nat)
  temperature : Option (List Nat)
  deriving DecidableEq

inductive EncodeErr where
  | negativeMapSize
  | mapTooLarge
  deriving DecidableEq

/-- `writeMapHeader`: fixed-map tag `0x80 | size` for sizes up to 15, a
  `0xde` tag with big-endian uint16 for sizes up to 0xffff, and an
  error beyond.  The Go `size < 0` branch is unreachable here because
  map sizes are naturals. -/
def writeMapHeader (size : Nat) : Except EncodeErr (List Nat) :=
  if size ≤ 15 then .ok [0x80 ||| size]
  else if size ≤ 0xffff then .ok [0xde, size / 256 % 256, size % 256]
  else .error .mapTooLarge

/-- `writeString`: four length tiers, then the raw bytes. -/
def writeString (value : List Nat) : List Nat :=
  let length := value.length
  if length ≤ 31 then (0xa0 ||| length) :: value
  else if length ≤ 0xff then 0xd9 :: length :: value
  else if length ≤ 0xffff then 0xda :: (length / 256 % 256) :: (length % 256) :: value
  else
    0xdb :: (length / 2 ^ 24 % 256) :: (length / 2 ^ 16 % 256) ::
      (length / 2 ^ 8 % 256) :: (length % 256) :: value

def writeBool (value : Bool) : List Nat :=
  if value then [0xc3] else [0xc2]

/-- `writeFloat64`: tag `0xcb` followed by the 8 big-endian bytes of the
  IEEE-754 double. -/
def writeFloat64 (valueBE : List Nat) : List Nat :=
  0xcb :: valueBE

/-- UTF-8 bytes of the fixed map keys and test values (all ASCII). -/
def keyText : List Nat := [0x74, 0x65, 0x78, 0x74]
def keyReferenceId : List Nat := [0x72, 0x65, 0x66, 0x65, 0x72, 0x65, 0x6e, 0x63, 0x65, 0x5f, 0x69, 0x64]
def keyStreaming : List Nat := [0x73, 0x74, 0x72, 0x65, 0x61, 0x6d, 0x69, 0x6e, 0x67]
def keyFormat : List Nat := [0x66, 0x6f, 0x72, 0x6d, 0x61, 0x74]
def keyTopP : List Nat := [0x74, 0x6f, 0x70, 0x5f, 0x70]
def keyTemperature : List Nat := [0x74, 0x65, 0x6d, 0x70, 0x65, 0x72, 0x61, 0x74, 0x75, 0x72, 0x65]
def valHello : List Nat := [0x68, 0x65, 0x6c, 0x6c, 0x6f]
def valWav : List Nat := [0x77, 0x61, 0x76]

/-- `encodeTTSRequest` from src/unnamed/part_007: a map whose entry
  count reflects field presence, with entries emitted in the declared
  order text, reference_id, streaming, format, top_p, temperature and
  the optional fields omitted entirely when absent. -/
def encodeTTSRequest (payload : TTSRequest) : Except EncodeErr (List Nat) :=
  let count := 3
  let count := if payload.referenceID ≠ [] then count + 1 else count
  let count := if payload.topP.isSome then count + 1 else count
  let count := if payload.temperature.isSome then count + 1 else count
  match writeMapHeader count with
  | .error e => .error e
  | .ok header =>
    .ok (header
      ++ writeString keyText ++ writeString payload.text
      ++ (if payload.referenceID ≠ [] then
            writeString keyReferenceId ++ writeString payload.referenceID
          else [])
      ++ writeString keyStreaming ++ writeBool payload.streaming
      ++ writeString keyFormat ++ writeString payload.format
      ++ (match payload.topP with
          | some v => writeString keyTopP ++ writeFloat64 v
          | none => [])
      ++ (match payload.temperature with
          | some v => writeString keyTemperature ++ writeFloat64 v
          | none => []))

/-! ## Slot-pool trace machine

  The `slots` channel together with the release closures handed out by
  `Acquire` form a small transition system.  A state records the channel
  occupancy and, for every grant made so far, whether its release
  closure has been invoked at least once.  `semStep false` is the
  src/unnamed/part_000 semantics, whose release closure performs an
  unguarded non-blocking receive on `slots` every time it is called;
  `semStep true` is the sync.Once release semantics of the second
  variant in src/unnamed/part_001, where only the first invocation
  receives from the semaphore. -/

structure SemState where
  count : Nat
  grants : List Bool
  deriving DecidableEq

inductive SemEvent where
  /-- a fresh caller attempts `Acquire` (modelled at the instant of the
    call: it is granted exactly when the channel is not full). -/
  | acquire
  /-- the release closure returned by the i-th successful `Acquire` is
    invoked. -/
  | release (i : Nat)
  deriving DecidableEq

def semInit : SemState := { count := 0, grants := [] }

def semStep (onceGuard : Bool) (cap : Nat) (s : SemState) : SemEvent → SemState
  | .acquire =>
    if s.count < cap then { count := s.count + 1, grants := s.grants ++ [false] } else s
  | .release i =>
    match s.grants[i]? with
    | none => s
    | some invoked =>
      if onceGuard && invoked then s
      else { count := s.count - 1, grants := s.grants.set i true }

def semRun (onceGuard : Bool) (cap : Nat) (s : SemState) : List SemEvent → SemState
  | [] => s
  | e :: evs => semRun onceGuard cap (semStep onceGuard cap s e) evs

/-- Number of grants whose release closure has never been invoked: the
  `Acquire` calls that are concurrently un-released. -/
def unreleased (s : SemState) : Nat := s.grants.countP (fun b => !b)

/-- Single-release discipline: every `release` event invokes the closure
  of a grant that has not been released before.  This is the documented
  protocol of src/unnamed/part_000 ("the returned release function must
  be called to free the slot"). -/
def wfEvent (s : SemState) : SemEvent → Bool
  | .acquire => true
  | .release i => s.grants[i]? == some false

def wfFrom (cap : Nat) (s : SemState) : List SemEvent → Bool
  | [] => true
  | e :: evs => wfEvent s e && wfFrom cap (semStep false cap s e) evs

/-! ## Work queue, src/internal/queue/manager.go

  `Manager.Submit` first polls the `closed` channel; once `Shutdown`'s
  `closeOnce` has closed it, that receive is always ready and `Submit`
  returns `ErrShutdown` before ever constructing or enqueueing a job.
  We model the admission portion of `Submit` at the instant of the
  call; a send on the buffered `jobs` channel is ready exactly when the
  buffer is below `MaxQueue`, and a send on the unbuffered channel is
  ready exactly when a worker is blocked receiving. -/

structure ManagerState where
  /-- the `closed` channel has been closed by `Shutdown`. -/
  closed : Bool
  /-- `cap(m.jobs)`, i.e. `MaxQueue` after `NewManager` normalisation. -/
  maxQueue : Nat
  /-- jobs currently buffered in `m.jobs`. -/
  queueLen : Nat
  /-- the configured worker count. -/
  workers : Nat
  /-- `m.active`: workers currently executing a job. -/
  active : Nat
  /-- a worker is blocked on `for j := range m.jobs` (unbuffered
    handoff readiness). -/
  workerWaiting : Bool
  deriving DecidableEq

inductive SubmitRes where
  | errShutdown
  | errQueueFull
  | errCtx
  /-- the job was placed in the buffered channel. -/
  | enqueued
  /-- the job was handed directly to a waiting worker. -/
  | handoff
  /-- the call suspends in the handoff select. -/
  | blocked
  deriving DecidableEq

/-- Admission portion of `Manager.Submit`, at the instant of the call.
  The subsequent wait on the job's result channel is not modelled; no
  claim concerns it. -/
def Submit (m : ManagerState) (ctxCanceled : Bool) : SubmitRes × ManagerState :=
  if m.closed then (.errShutdown, m)
  else if m.maxQueue = 0 then
    if m.workers ≤ m.active then (.errQueueFull, m)
    else if m.workerWaiting then (.handoff, m)
    else if ctxCanceled then (.errCtx, m)
    else (.blocked, m)
  else
    if m.queueLen < m.maxQueue then (.enqueued, { m with queueLen := m.queueLen + 1 })
    else (.errQueueFull, m)

/-! ## Shutdown drain, src/internal/queue/manager.go

  After `closeOnce` runs, `Shutdown` races a goroutine that waits for
  the workers to drain the closed `jobs` channel and for the in-flight
  wait group against the cancellation token.  A drain state tracks the
  still-buffered jobs, the jobs claimed but not yet completed, whether
  the token has fired, and the value `Shutdown` has returned (if any).
  `selectDone` is the `<-done` arm, enabled once every queued and
  in-flight job has completed; `selectCtx` is the `<-ctx.Done()` arm,
  enabled once the token has fired.  Either arm may win when both are
  ready, exactly as in a Go `select`. -/

inductive ShutdownRes where
  /-- `Shutdown` returned nil. -/
  | ok
  /-- `Shutdown` returned `ctx.Err()`. -/
  | ctxErr
  deriving DecidableEq

structure DrainState where
  queued : Nat
  running : Nat
  tokenFired : Bool
  result : Option ShutdownRes
  deriving DecidableEq

inductive DrainEvent where
  /-- a worker dequeues a buffered job. -/
  | claim
  /-- a claimed job finishes. -/
  | complete
  /-- the cancellation token fires. -/
  | tokenFire
  /-- the `<-done` select arm resolves. -/
  | selectDone
  /-- the `<-ctx.Done()` select arm resolves. -/
  | selectCtx
  deriving DecidableEq

def drainInit (queued running : Nat) : DrainState :=
  { queued := queued, running := running, tokenFired := false, result := none }

def drainStep (s : DrainState) : DrainEvent → DrainState
  | .claim =>
    if 0 < s.queued then { s with queued := s.queued - 1, running := s.running + 1 } else s
  | .complete =>
    if 0 < s.running then { s with running := s.running - 1 } else s
  | .tokenFire => { s with tokenFired := true }
  | .selectDone =>
    if s.result = none ∧ s.queued = 0 ∧ s.running = 0 then { s with result := some .ok } else s
  | .selectCtx =>
    if s.result = none ∧ s.tokenFired = true then { s with result := some .ctxErr } else s

def drainRun (s : DrainState) : List DrainEvent → DrainState
  | [] => s
  | e :: evs => drainRun (drainStep s e) evs

/-! ## Streaming relay traces

  Two relay implementations copy the backend response to the client.
  `handleStreamingTTS` (src/go/internal/api/handlers.go) loops: read up
  to 4096 bytes, write the chunk, flush on write success, read again,
  breaking on EOF.  `TTSHandler.ServeHTTP`
  (src/internal/api/tts_handler.go) relays with `io.Copy(w, resp.Body)`,
  which alternates reads and writes and never calls Flush.  A backend
  stream is modelled by the list of its chunk sizes (the relay loops do
  not inspect chunk contents); the final read returns EOF. -/

inductive RelayEv where
  /-- the i-th chunk is read from the backend stream. -/
  | read (i : Nat)
  /-- the backend stream reports EOF. -/
  | readEOF
  /-- the i-th chunk is written to the output sink. -/
  | write (i : Nat)
  /-- the output sink is explicitly flushed. -/
  | flush
  deriving DecidableEq

/-- Trace of the `handleStreamingTTS` loop: each iteration reads a
  chunk, writes it, flushes only when the write succeeded (`writeOk i`),
  and loops; the terminating read returns EOF.  A failed write does not
  stop the loop. -/
def handleStreamingTTSTrace (writeOk : Nat → Bool) : Nat → List Nat → List RelayEv
  | _, [] => [.readEOF]
  | i, _n :: rest =>
    .read i :: .write i ::
      (if writeOk i then RelayEv.flush :: handleStreamingTTSTrace writeOk (i + 1) rest
       else handleStreamingTTSTrace writeOk (i + 1) rest)

/-- Trace of the `io.Copy` relay: alternate reads and writes until EOF,
  with no flush anywhere. -/
def ioCopyTrace : Nat → List Nat → List RelayEv
  | _, [] => [.readEOF]
  | i, _n :: rest => .read i :: .write i :: ioCopyTrace (i + 1) rest

def alwaysOk : Nat → Bool := fun _ => true

/-- The claimed streaming discipline: no read (EOF included) happens
  while a previous write is still unflushed.  The Boolean argument
  carries whether an unflushed write is pending. -/
def flushDiscipline : Bool → List RelayEv → Bool
  | _, [] => true
  | pending, .read _ :: rest => !pending && flushDiscipline pending rest
  | pending, .readEOF :: rest => !pending && flushDiscipline pending rest
  | _, .write _ :: rest => flushDiscipline true rest
  | _, .flush :: rest => flushDiscipline false rest

/-- A closed manager with idle workers and a roomy buffer: even then,
  `Submit` is rejected. -/
def closedManager : ManagerState :=
  { closed := true, maxQueue := 4, queueLen := 0, workers := 2, active := 0,
    workerWaiting := true }

end FishSpeech

namespace FishSpeech

lemma countP_not_append_false (l : List Bool) :
    (l ++ [false]).countP (fun b => !b) = l.countP (fun b => !b) + 1 := by
  simp [List.countP_append]

lemma countP_not_set_true (l : List Bool) :
    ∀ i : Nat, l[i]? = some false →
      (l.set i true).countP (fun b => !b) + 1 = l.countP (fun b => !b) := by
  induction l with
  | nil => intro i h; simp at h
  | cons b t ih =>
    intro i h
    cases i with
    | zero =>
      simp at h
      subst h
      simp [List.set, List.countP_cons]
    | succ j =>
      simp at h
      have hj := ih j h
      simp [List.set, List.countP_cons]
      omega

lemma countP_not_pos_of_get_false (l : List Bool) (i : Nat)
    (h : l[i]? = some false) : 1 ≤ l.countP (fun b => !b) := by
  have hm : false ∈ l := List.getElem?_mem h
  have : 0 < l.countP (fun b => !b) := List.countP_pos_iff.mpr ⟨false, hm, rfl⟩
  omega

/-- Under the single-release discipline, every reachable state of the
  part_000 machine keeps the channel occupancy equal to the number of
  un-released grants and below the configured capacity. -/
lemma semRun_false_inv (cap : Nat) :
    ∀ (evs : List SemEvent) (s : SemState),
      s.count = unreleased s → s.count ≤ cap → wfFrom cap s evs = true →
      (semRun false cap s evs).count = unreleased (semRun false cap s evs) ∧
      (semRun false cap s evs).count ≤ cap := by
  intro evs
  induction evs with
  | nil => intro s h1 h2 _; exact ⟨h1, h2⟩
  | cons e evs ih =>
    intro s h1 h2 hwf
    rw [wfFrom, Bool.and_eq_true] at hwf
    obtain ⟨hcond, hrest⟩ := hwf
    rw [semRun]
    cases e with
    | acquire =>
      by_cases hlt : s.count < cap
      · refine ih _ ?_ ?_ ?_
        · simp [semStep, hlt, unreleased, countP_not_append_false]
          rw [h1]; rfl
        · simp [semStep, hlt]; omega
        · simpa [semStep, hlt] using hrest
      · refine ih _ ?_ ?_ ?_
        · simpa [semStep, hlt] using h1
        · simpa [semStep, hlt] using h2
        · simpa [semStep, hlt] using hrest
    | release i =>
      have hget : s.grants[i]? = some false := by
        simpa [wfEvent] using hcond
      have hpos := countP_not_pos_of_get_false s.grants i hget
      have hset := countP_not_set_true s.grants i hget
      refine ih _ ?_ ?_ ?_
      · simp [semStep, hget, unreleased]
        simp [unreleased] at h1
        omega
      · simp [semStep, hget]
        omega
      · simpa [semStep, hget] using hrest

/-- In the sync.Once variant, the invariant needs no discipline
  hypothesis: a second invocation of a release closure is a no-op. -/
lemma semRun_true_inv (cap : Nat) :
    ∀ (evs : List SemEvent) (s : SemState),
      s.count = unreleased s → s.count ≤ cap →
      (semRun true cap s evs).count = unreleased (semRun true cap s evs) ∧
      (semRun true cap s evs).count ≤ cap := by
  intro evs
  induction evs with
  | nil => intro s h1 h2; exact ⟨h1, h2⟩
  | cons e evs ih =>
    intro s h1 h2
    rw [semRun]
    cases e with
    | acquire =>
      by_cases hlt : s.count < cap
      · refine ih _ ?_ ?_
        · simp [semStep, hlt, unreleased, countP_not_append_false]
          rw [h1]; rfl
        · simp [semStep, hlt]; omega
      · refine ih _ ?_ ?_
        · simpa [semStep, hlt] using h1
        · simpa [semStep, hlt] using h2
    | release i =>
      cases hget : s.grants[i]? with
      | none =>
        refine ih _ ?_ ?_
        · simpa [semStep, hget] using h1
        · simpa [semStep, hget] using h2
      | some invoked =>
        cases invoked with
        | true =>
          refine ih _ ?_ ?_
          · simpa [semStep, hget] using h1
          · simpa [semStep, hget] using h2
        | false =>
          have hpos := countP_not_pos_of_get_false s.grants i hget
          have hset := countP_not_set_true s.grants i hget
          refine ih _ ?_ ?_
          · simp [semStep, hget, unreleased]
            simp [unreleased] at h1
            omega
          · simp [semStep, hget]
            omega

lemma drainRun_ok_inv :
    ∀ (evs : List DrainEvent) (s : DrainState),
      (s.result = some ShutdownRes.ok → s.queued = 0 ∧ s.running = 0) →
      ((drainRun s evs).result = some ShutdownRes.ok →
        (drainRun s evs).queued = 0 ∧ (drainRun s evs).running = 0) := by
  intro evs
  induction evs with
  | nil => intro s h; exact h
  | cons e evs ih =>
    intro s h
    rw [drainRun]
    refine ih _ ?_
    cases e with
    | claim =>
      by_cases hq : 0 < s.queued
      · intro hr
        simp only [drainStep, if_pos hq] at hr ⊢
        have := h hr
        omega
      · simpa [drainStep, hq] using h
    | complete =>
      by_cases hrun : 0 < s.running
      · intro hr
        simp only [drainStep, if_pos hrun] at hr ⊢
        have := h hr
        omega
      · simpa [drainStep, hrun] using h
    | tokenFire => simpa [drainStep] using h
    | selectDone =>
      by_cases hc : s.result = none ∧ s.queued = 0 ∧ s.running = 0
      · intro _
        simp only [drainStep, if_pos hc]
        exact ⟨hc.2.1, hc.2.2⟩
      · simpa [drainStep, hc] using h
    | selectCtx =>
      by_cases hc : s.result = none ∧ s.tokenFired = true
      · intro hr
        simp only [drainStep, if_pos hc] at hr
        simp at hr
      · simpa [drainStep, hc] using h

lemma drainRun_ctxErr_inv :
    ∀ (evs : List DrainEvent) (s : DrainState),
      (s.result = some ShutdownRes.ctxErr → s.tokenFired = true) →
      ((drainRun s evs).result = some ShutdownRes.ctxErr →
        (drainRun s evs).tokenFired = true) := by
  intro evs
  induction evs with
  | nil => intro s h; exact h
  | cons e evs ih =>
    intro s h
    rw [drainRun]
    refine ih _ ?_
    cases e with
    | claim =>
      by_cases hq : 0 < s.queued
      · intro hr
        simp only [drainStep, if_pos hq] at hr ⊢
        exact h hr
      · simpa [drainStep, hq] using h
    | complete =>
      by_cases hrun : 0 < s.running
      · intro hr
        simp only [drainStep, if_pos hrun] at hr ⊢
        exact h hr
      · simpa [drainStep, hrun] using h
    | tokenFire =>
      intro _
      simp [drainStep]
    | selectDone =>
      by_cases hc : s.result = none ∧ s.queued = 0 ∧ s.running = 0
      · intro hr
        simp only [drainStep, if_pos hc] at hr
        simp at hr
      · simpa [drainStep, hc] using h
    | selectCtx =>
      by_cases hc : s.result = none ∧ s.tokenFired = true
      · intro _
        simp only [drainStep, if_pos hc]
        exact hc.2
      · simpa [drainStep, hc] using h

/-- C3: encoding `{text: "hello", streaming: false, format: "wav"}` with
  no optional fields yields exactly the 3-entry fixed-map byte sequence
  pinned by TestClientStreamTTSSuccess in src/unnamed/part_006, with the
  entries in declared order. -/
theorem encode_hello_wav_bytes :
    encodeTTSRequest { text := valHello, referenceID := [], streaming := false,
                       format := valWav, topP := none, temperature := none } =
      .ok [0x83,
        0xa4, 0x74, 0x65, 0x78, 0x74,
        0xa5, 0x68, 0x65, 0x6c, 0x6c, 0x6f,
        0xa9, 0x73, 0x74, 0x72, 0x65, 0x61, 0x6d, 0x69, 0x6e, 0x67, 0xc2,
        0xa6, 0x66, 0x6f, 0x72, 0x6d, 0x61, 0x74,
        0xa3, 0x77, 0x61, 0x76] := by
  rfl

/-- C10: for every request whose `ReferenceID` is the empty string (the
  Go zero value, i.e. the field absent) and whose optional float fields
  are absent, the encoder emits a map header counting exactly the three
  mandatory entries and no `reference_id` key: the output is byte-equal
  to the 3-entry encoding of text, streaming and format alone. -/
theorem encode_empty_reference_id_omitted
    (text : List Nat) (streaming : Bool) (format : List Nat) :
    encodeTTSRequest { text := text, referenceID := [], streaming := streaming,
                       format := format, topP := none, temperature := none } =
      .ok (0x83 :: (writeString keyText ++ writeString text
        ++ writeString keyStreaming ++ writeBool streaming
        ++ writeString keyFormat ++ writeString format)) := by
  show Except.ok _ = _
  simp [writeMapHeader]

/-- C6: with the acquire timeout unset or zero, a non-canceled caller
  that finds every slot occupied is rejected with `ErrLimitExceeded`
  immediately (the no-wait `default` branch of the slow-path select). -/
theorem acquire_no_timeout_full_limitExceeded
    (c : Chunker) (count : Nat)
    (htimeout : c.acquireTimeout ≤ 0) (hfull : c.slotsCap ≤ count) :
    c.Acquire count false = .rejected .limitExceeded := by
  unfold Chunker.Acquire
  rw [if_neg (by omega), if_pos htimeout]
  rfl

theorem acquire_no_timeout_full_limitExceeded_witness :
    (NewChunker { maxConcurrent := 1, acquireTimeout := 0 }).acquireTimeout ≤ 0 ∧
    (NewChunker { maxConcurrent := 1, acquireTimeout := 0 }).slotsCap ≤ 1 ∧
    (NewChunker { maxConcurrent := 1, acquireTimeout := 0 }).Acquire 1 false =
      .rejected .limitExceeded :=
  ⟨by decide, by decide,
    acquire_no_timeout_full_limitExceeded (NewChunker { maxConcurrent := 1, acquireTimeout := 0 })
      1 (by decide) (by decide)⟩

/-- C4 counterexample: an `Acquire` whose context is already canceled is
  nevertheless granted a slot when one is free, because the fast-path
  select (send or default) never consults the context.  At capacity 1,
  occupancy 0, canceled context, the call returns a granted slot and
  not the cancellation error. -/
theorem acquire_canceled_ctx_still_granted :
    (NewChunker { maxConcurrent := 1, acquireTimeout := 0 }).Acquire 0 true = .granted 1 ∧
    (NewChunker { maxConcurrent := 1, acquireTimeout := 0 }).Acquire 0 true ≠
      .rejected .canceled := by
  decide

/-- C4 amended: an already-canceled context makes `Acquire` return the
  cancellation's own error (never `AcquireTimeout`, never a slot) only
  when every slot is occupied at the instant of the call; with a free
  slot the fast path grants it regardless of cancellation. -/
theorem acquire_canceled_ctx_full_returns_cancel
    (c : Chunker) (count : Nat) (hfull : c.slotsCap ≤ count) :
    c.Acquire count true = .rejected .canceled := by
  unfold Chunker.Acquire
  rw [if_neg (by omega)]
  by_cases h : c.acquireTimeout ≤ 0
  · rw [if_pos h]; rfl
  · rw [if_neg h]; rfl

theorem acquire_canceled_ctx_full_returns_cancel_witness :
    (NewChunker { maxConcurrent := 1, acquireTimeout := 0 }).slotsCap ≤ 1 ∧
    (NewChunker { maxConcurrent := 1, acquireTimeout := 0 }).Acquire 1 true =
      .rejected .canceled :=
  ⟨by decide,
    acquire_canceled_ctx_full_returns_cancel (NewChunker { maxConcurrent := 1, acquireTimeout := 0 })
      1 (by decide)⟩

/-- C1: under the single-release discipline, at most `cap` `Acquire`
  calls of the part_000 Chunker are concurrently un-released after any
  event sequence, and while `cap` releases are still outstanding a
  further concurrent caller is never granted a slot (the attempted
  `acquire` step leaves the state unchanged). -/
theorem chunker_capacity_invariant (cap : Nat) (evs : List SemEvent)
    (hwf : wfFrom cap semInit evs = true) :
    unreleased (semRun false cap semInit evs) ≤ cap ∧
    (unreleased (semRun false cap semInit evs) = cap →
      semStep false cap (semRun false cap semInit evs) .acquire =
        semRun false cap semInit evs) := by
  have hinv := semRun_false_inv cap evs semInit (by rfl) (by simp [semInit]) hwf
  refine ⟨by omega, ?_⟩
  intro hfull
  have hnot : ¬ (semRun false cap semInit evs).count < cap := by omega
  simp [semStep, hnot]

theorem chunker_capacity_invariant_witness :
    wfFrom 2 semInit [SemEvent.acquire, SemEvent.acquire, SemEvent.release 0,
        SemEvent.acquire] = true ∧
    (unreleased (semRun false 2 semInit [SemEvent.acquire, SemEvent.acquire,
        SemEvent.release 0, SemEvent.acquire]) ≤ 2 ∧
      (unreleased (semRun false 2 semInit [SemEvent.acquire, SemEvent.acquire,
          SemEvent.release 0, SemEvent.acquire]) = 2 →
        semStep false 2 (semRun false 2 semInit [SemEvent.acquire, SemEvent.acquire,
            SemEvent.release 0, SemEvent.acquire]) .acquire =
          semRun false 2 semInit [SemEvent.acquire, SemEvent.acquire,
            SemEvent.release 0, SemEvent.acquire])) :=
  ⟨by decide,
    chunker_capacity_invariant 2 [SemEvent.acquire, SemEvent.acquire,
      SemEvent.release 0, SemEvent.acquire] (by decide)⟩

/-- C2 counterexample: in the part_000 machine, whose release closure is
  not guarded by a one-shot flag, invoking one grant's release closure
  twice frees a slot held by another caller.  With capacity 1, after
  the trace acquire A, release A, acquire B, release A again, acquire C
  the grants of B and C are both un-released: 2 > 1 simultaneous
  grants, refuting the claim at capacity 1. -/
theorem double_release_exceeds_capacity :
    unreleased (semRun false 1 semInit [SemEvent.acquire, SemEvent.release 0,
      SemEvent.acquire, SemEvent.release 0, SemEvent.acquire]) = 2 := by
  decide

/-- C2 amended: in the sync.Once release variant (the second Chunker in
  src/unnamed/part_001) the release closure decrements the held count
  exactly once however often it is called, so after arbitrary event
  sequences — double releases included — at most `cap` `Acquire` calls
  are ever simultaneously un-released.  The part_000 closure lacks the
  one-shot guard and does not satisfy this bound. -/
theorem release_once_capacity_bound (cap : Nat) (evs : List SemEvent) :
    unreleased (semRun true cap semInit evs) ≤ cap := by
  have hinv := semRun_true_inv cap evs semInit (by rfl) (by simp [semInit])
  omega

/-- C5 counterexample: the `ChunkerConfig`-based constructor of
  src/unnamed/part_000 cannot fail; with `MaxConcurrent = 0` (and with
  `MaxConcurrent = -5`) it silently coerces the capacity to 1 instead of
  returning a construction-time error. -/
theorem newChunker_coerces_nonpositive_to_one :
    (NewChunker { maxConcurrent := 0, acquireTimeout := 0 }).slotsCap = 1 ∧
    (NewChunker { maxConcurrent := -5, acquireTimeout := 0 }).slotsCap = 1 := by
  decide

/-- C5 amended: the `Options`-based constructor (second variant in
  src/unnamed/part_001) fails fast with an error for every
  `MaxConcurrent ≤ 0`, while the `ChunkerConfig`-based constructor
  (src/unnamed/part_000) never errors and silently coerces such values
  to capacity 1. -/
theorem newChunkerChecked_nonpositive_errors
    (opts : Options) (h : opts.maxConcurrent ≤ 0) :
    NewChunkerChecked opts = .error .maxConcurrentNotPositive := by
  unfold NewChunkerChecked
  rw [if_pos h]

theorem newChunkerChecked_nonpositive_errors_witness :
    (0 : Int) ≤ 0 ∧
    NewChunkerChecked { maxConcurrent := 0, acquireTimeout := 0 } =
      .error .maxConcurrentNotPositive :=
  ⟨by decide,
    newChunkerChecked_nonpositive_errors { maxConcurrent := 0, acquireTimeout := 0 } (by decide)⟩

/-- C7: a `Submit` that starts after `Shutdown` has begun (the `closed`
  channel is closed) returns `ErrShutdown` from the opening select,
  leaving the queue untouched: the job is neither enqueued nor handed
  off nor silently dropped, and the call does not suspend. -/
theorem submit_after_shutdown_rejected
    (m : ManagerState) (ctxCanceled : Bool) (h : m.closed = true) :
    Submit m ctxCanceled = (.errShutdown, m) := by
  unfold Submit
  rw [if_pos h]

theorem submit_after_shutdown_rejected_witness :
    closedManager.closed = true ∧
    Submit closedManager false = (.errShutdown, closedManager) :=
  ⟨rfl, submit_after_shutdown_rejected closedManager false rfl⟩

/-- C8: outcomes of the `Shutdown` drain race.
  (1) From any initial backlog, along any event sequence, `Shutdown`
  returns nil only when every queued and in-flight job has completed;
  (2) it returns the token's error only if the token actually fired;
  (3) while jobs are still outstanding and the token has fired, the
  `<-done` arm cannot resolve and the `<-ctx.Done()` arm returns the
  token's error;
  (4) once fully drained with the token not fired, the `<-ctx.Done()`
  arm cannot resolve and the `<-done` arm returns nil. -/
theorem shutdown_drain_semantics :
    (∀ (q r : Nat) (evs : List DrainEvent),
      (drainRun (drainInit q r) evs).result = some ShutdownRes.ok →
      (drainRun (drainInit q r) evs).queued = 0 ∧ (drainRun (drainInit q r) evs).running = 0) ∧
    (∀ (q r : Nat) (evs : List DrainEvent),
      (drainRun (drainInit q r) evs).result = some ShutdownRes.ctxErr →
      (drainRun (drainInit q r) evs).tokenFired = true) ∧
    (∀ s : DrainState, s.tokenFired = true → 0 < s.queued + s.running → s.result = none →
      drainStep s .selectDone = s ∧ (drainStep s .selectCtx).result = some ShutdownRes.ctxErr) ∧
    (∀ s : DrainState, s.queued = 0 → s.running = 0 → s.tokenFired = false → s.result = none →
      drainStep s .selectCtx = s ∧ (drainStep s .selectDone).result = some ShutdownRes.ok) := by
  refine ⟨?_, ?_, ?_, ?_⟩
  · intro q r evs
    exact drainRun_ok_inv evs (drainInit q r) (by intro h; simp [drainInit] at h)
  · intro q r evs
    exact drainRun_ctxErr_inv evs (drainInit q r) (by intro h; simp [drainInit] at h)
  · intro s hfired houtstanding hres
    constructor
    · have : ¬ (s.result = none ∧ s.queued = 0 ∧ s.running = 0) := by
        intro hc; omega
      simp [drainStep, this]
    · simp [drainStep, hres, hfired]
  · intro s hq hr hfired hres
    constructor
    · have : ¬ (s.result = none ∧ s.tokenFired = true) := by
        intro hc; rw [hfired] at hc; exact absurd hc.2 (by decide)
      simp [drainStep, this]
    · simp [drainStep, hres, hq, hr]

/-- C9 counterexample: the io.Copy relay trace for a two-chunk backend
  stream reads the second chunk with the first chunk's write still
  unflushed (indeed the trace contains no flush at all), refuting the
  claim for this relay. -/
theorem ioCopy_relay_reads_ahead_of_flush :
    flushDiscipline false (ioCopyTrace 0 [4096, 4096]) = false := by
  decide

/-- C9 amended: the chunked relay loop of `handleStreamingTTS`
  (src/go/internal/api/handlers.go) writes and flushes each chunk
  before reading the next whenever every write succeeds; the io.Copy
  relay of `TTSHandler.ServeHTTP` (src/internal/api/tts_handler.go)
  never explicitly flushes, so it reads ahead of what has been flushed
  (and the chunked loop itself skips the flush after a failed write
  while continuing to read). -/
theorem handleStreamingTTS_flush_discipline (chunks : List Nat) :
    ∀ i : Nat, flushDiscipline false (handleStreamingTTSTrace alwaysOk i chunks) = true := by
  induction chunks with
  | nil => intro i; rfl
  | cons c rest ih =>
    intro i
    simpa [handleStreamingTTSTrace, flushDiscipline, alwaysOk] using ih (i + 1)

theorem shutdown_drain_semantics_witness :
    drainStep { queued := 1, running := 0, tokenFired := true, result := none }
        DrainEvent.selectDone =
      { queued := 1, running := 0, tokenFired := true, result := none } ∧
    (drainStep { queued := 1, running := 0, tokenFired := true, result := none }
        DrainEvent.selectCtx).result = some ShutdownRes.ctxErr :=
  shutdown_drain_semantics.2.2.1
    { queued := 1, running := 0, tokenFired := true, result := none }
    rfl (by decide) rfl

end FishSpeech
